import Mathlib

/-!
Verification development for the attachment lifecycle and AI-context assembly
subsystem of the edge-chatbot backend.

The Python sources are shallowly embedded as executable Lean definitions:

* pure helper functions of `FileService` (filename sanitization, attachment
  classification, storage-path generation) are translated directly;
* the FastAPI route handlers over the relational store become explicit
  state-passing functions over a `St` record holding the tables;
* external effects (SHA-256, libmagic sniffing, the blob store, the AI
  providers, the tiktoken tokenizer and the document-parsing libraries) enter
  through an `Env` record of abstract functions, so every route is a pure
  function of its inputs and the environment.

Machine-level caveats recorded next to the definitions they concern.
-/

namespace EdgeChatbot

/-- Modelled from the spec: lifecycle status of an attachment
(`PENDING`, `UPLOADED`, `FAILED`, `DELETED`); the enum lives in
`models/attachments_model.py`, which is not part of the provided sources. -/
inductive AttachmentStatus where
  | pending
  | uploaded
  | failed
  | deleted
deriving DecidableEq, Repr

/-- Modelled from the spec: activity toggle of an attachment
(`ACTIVE` / `INACTIVE`), from `models/attachments_model.py` (not provided). -/
inductive AttachmentActivityStatus where
  | active
  | inactive
deriving DecidableEq, Repr

/-- Modelled from the spec: classification of an attachment
(`IMAGE`, `DOCUMENT`, `OTHER`), from `models/attachments_model.py`
(not provided). -/
inductive AttachmentType where
  | image
  | document
  | other
deriving DecidableEq, Repr

/-- Modelled from the spec: role of a chat message (`USER` / `ASSISTANT`),
from `models/messages_model.py` (not provided). -/
inductive MessageRole where
  | user
  | assistant
deriving DecidableEq, Repr

/-- Modelled from the spec: status of a conversation; the attachment routes
only ever compare against the deleted state. -/
inductive ConversationStatus where
  | active
  | archived
  | deleted
deriving DecidableEq, Repr

/-! ### FileService: filename sanitization (`file_storage_database.py`) -/

/-- Characters kept by the regex `[^a-zA-Z0-9._-]` removal step of
`FileService._sanitize_filename`. -/
def allowedChar (c : Char) : Bool :=
  (97 ≤ c.val && c.val ≤ 122) || (65 ≤ c.val && c.val ≤ 90) ||
  (48 ≤ c.val && c.val ≤ 57) || c = '.' || c = '_' || c = '-'

/-- Model of `unicodedata.normalize('NFKD', f).encode('ascii','ignore')`:
on ASCII input this composite is the identity; we model it as dropping
non-ASCII characters.  Every property proved below about the sanitizer is
independent of this step, because the subsequent character filter
(`sanitizeChars`) keeps only characters from `[a-zA-Z0-9._-]`. -/
def nfkdAscii (l : List Char) : List Char :=
  l.filter (fun c => c.val ≤ 127)

/-- Index of the last '.' in a character list, if any
(Python `str.rfind('.')`). -/
def rfindDot (l : List Char) : Option Nat :=
  ((List.range l.length).filter (fun i => l.get? i = some '.')).getLast?

/-- Model of `os.path.splitext` on a string without path separators (at the
point of use, '/' and '\\' have already been removed by the character filter):
the extension starts at the last dot, unless every character before that dot
is itself a dot (leading dots are part of the root). -/
def splitext (l : List Char) : List Char × List Char :=
  match rfindDot l with
  | none => (l, [])
  | some i =>
      if (l.take i).any (fun c => c ≠ '.') then (l.take i, l.drop i) else (l, [])

/-- Python slice stop semantics for `name[:m]` where `m : Int` may be
negative: a negative stop counts from the end, clamped at zero. -/
def pySliceStop (len : Nat) (stop : Int) : Nat :=
  if stop < 0 then ((len : Int) + stop).toNat else min stop.toNat len

/-- The length-cap branch of `_sanitize_filename`:
`name, ext = os.path.splitext(filename); filename = name[:255 - len(ext)] + ext`
(applied only when the name is longer than 255). -/
def capLength (l : List Char) : List Char :=
  if l.length > 255 then
    let ne := splitext l
    ne.1.take (pySliceStop ne.1.length (255 - (ne.2.length : Int))) ++ ne.2
  else l

/-- Python `str.replace('..','')`: left-to-right removal of non-overlapping
occurrences of two consecutive dots. -/
def removeDotDot : List Char → List Char
  | '.' :: '.' :: rest => removeDotDot rest
  | c :: rest => c :: removeDotDot rest
  | [] => []

/-- The step `if filename.startswith('.'): filename = '_' + filename[1:]`. -/
def fixLeadingDot : List Char → List Char
  | '.' :: rest => '_' :: rest
  | l => l

/-- Steps of `FileService._sanitize_filename` after the unicode/ASCII
normalization, in source order: spaces to underscores, character filter,
empty-name placeholder, length cap, traversal-sequence removal, and the
leading-dot rewrite. -/
def sanitizeChars (l : List Char) : List Char :=
  let l1 := l.map (fun c => if c = ' ' then '_' else c)
  let l2 := l1.filter allowedChar
  let l3 := if l2.isEmpty then "unnamed_file".data else l2
  let l4 := capLength l3
  let l5 := removeDotDot l4
  let l6 := l5.filter (fun c => c ≠ '/')
  let l7 := l6.filter (fun c => c ≠ '\\')
  fixLeadingDot l7

/-- `FileService._sanitize_filename`. -/
def sanitize_filename (f : String) : String :=
  String.mk (sanitizeChars (nfkdAscii f.data))

/-! ### FileService: classification (`classify_attachment_type`) -/

/-- ASCII lower-casing, the relevant fragment of Python `str.lower` (every
string compared against is ASCII). -/
def pyLower (s : String) : String :=
  String.mk (s.data.map Char.toLower)

/-- Whether the first list leads the second (`p` is an initial segment of
`l`); structural-recursive so it evaluates by kernel reduction. -/
def hasLead : List Char → List Char → Bool
  | [], _ => true
  | _ :: _, [] => false
  | p :: ps, c :: cs => p = c && hasLead ps cs

/-- Python `str.startswith` over the embedded strings. -/
def pyStartsWith (s pre : String) : Bool :=
  hasLead pre.data s.data

/-- Split a character list on '/' (for the POSIX path components). -/
def splitSlash : List Char → List (List Char)
  | [] => [[]]
  | c :: rest =>
      let r := splitSlash rest
      if c = '/' then [] :: r
      else
        match r with
        | [] => [[c]]
        | h :: t => (c :: h) :: t

/-- A readable injective key for a byte string, used as the concrete stand-in
digest function in executable scenarios. -/
def natsKey : List Nat → String
  | [] => ""
  | n :: rest => toString n ++ "-" ++ natsKey rest

/-- The MIME types of the `document_types` set in
`classify_attachment_type`. -/
def document_types : List String :=
  ["application/pdf",
   "application/msword",
   "application/vnd.openxmlformats-officedocument.wordprocessingml.document",
   "application/vnd.ms-excel",
   "application/vnd.openxmlformats-officedocument.spreadsheetml.sheet",
   "application/vnd.ms-powerpoint",
   "application/vnd.openxmlformats-officedocument.presentationml.presentation",
   "text/plain",
   "text/csv",
   "text/markdown",
   "text/rtf",
   "application/rtf"]

/-- The `code_extensions` set in `classify_attachment_type`. -/
def code_extensions : List String :=
  [".py", ".js", ".ts", ".jsx", ".tsx", ".java", ".c", ".cpp", ".cs",
   ".go", ".rs", ".php", ".rb", ".swift", ".kt", ".scala", ".r",
   ".sh", ".bat", ".ps1", ".yaml", ".yml", ".json", ".xml", ".html",
   ".css", ".scss", ".sass", ".sql", ".dockerfile", ".makefile"]

/-- The `archive_types` set in `classify_attachment_type`. -/
def archive_types : List String :=
  ["application/zip",
   "application/x-zip-compressed",
   "application/x-rar-compressed",
   "application/x-tar",
   "application/x-7z-compressed",
   "application/gzip",
   "application/x-bzip2"]

/-- `pathlib.Path(filename).name`: the last nonempty component of the
POSIX path. -/
def pathName (filename : String) : String :=
  String.mk (((splitSlash filename.data).filter (fun s => !s.isEmpty)).getLastD [])

/-- `pathlib.Path(filename).suffix`: the part of the name from its last dot,
provided that dot is neither the first nor the last character of the name. -/
def pathSuffix (filename : String) : String :=
  let nm := (pathName filename).data
  match rfindDot nm with
  | none => ""
  | some i => if 0 < i ∧ i < nm.length - 1 then String.mk (nm.drop i) else ""

/-- `FileService.classify_attachment_type(content_type, filename=None)`.
The filename is optional with default `None`; Python evaluates the extension
block only under `if filename:`, so `None` and the empty string skip it. -/
def classify_attachment_type (content_type : String) (filename : Option String) :
    AttachmentType :=
  let ct := pyLower content_type
  if pyStartsWith ct "image/" then .image
  else if decide (ct ∈ document_types) then .document
  else if (match filename with
           | some f =>
              f ≠ "" &&
              (decide (pyLower (pathSuffix f) ∈ code_extensions) ||
               pyStartsWith ct "text/")
           | none => false) then .document
  else if pyStartsWith ct "audio/" then .other
  else if decide (ct ∈ archive_types) then .other
  else if pyStartsWith ct "video/" then .other
  else .other

/-! ### FileService: storage-path generation (`generate_storage_path`) -/

/-- The date/time strings drawn from `datetime.now(UTC)` at path-generation
time, plus every other external effect used by the routes (described at each
field).  Grouping them in one record keeps the route embeddings pure. -/
structure Env where
  /-- `now.strftime('%Y')`. -/
  yearStr : String
  /-- `now.strftime('%m')`. -/
  monthStr : String
  /-- `now.strftime('%d')`. -/
  dayStr : String
  /-- `now.strftime('%H%M%S%f')[:12]`, the timestamp-derived unique id. -/
  timeStr : String
  /-- SHA-256 hex digest of a byte string (`FileService.calculate_file_hash`
  streams the bytes in 8 KiB chunks through `hashlib.sha256`; only the
  function from content to digest matters here). -/
  sha256 : List Nat → String
  /-- `magic.Magic(mime=True).from_buffer` on the first 2048 bytes;
  `none` models the sniffing raising, which the code converts to
  `application/octet-stream`. -/
  sniff : List Nat → Option String
  /-- Whether `storage_backend.store` raises for a given path
  (Azure I/O failure). -/
  storeFails : String → Bool
  /-- Whether `generate_presigned_url` raises at initiation time. -/
  presignFails : Bool
  /-- The presigned URL returned on success. -/
  presignUrl : String
  /-- The uuid the database assigns to a freshly inserted attachment row. -/
  freshUuid : String
  /-- Creation timestamp counter for ordering (`created_at`). -/
  nowTick : Nat
  /-- Outcome of `get_ai_response`: the reply text, or the exception message
  it raised. -/
  ai : Except String String
  /-- `settings.max_file_size`. -/
  maxFileSize : Nat
  /-- `settings.max_attachments_per_conversation`. -/
  maxAttachments : Nat
  /-- `settings.allowed_content_types`. -/
  allowedContentTypes : List String
  /-- `settings.persist_attachment_preferences` (with the `hasattr` guard). -/
  persistPrefs : Bool

/-- `FileService.generate_storage_path(user_id, conversation_id, filename,
content_hash=None)`.  Python tests `if content_hash:`, so both `None` and the
empty string select the timestamp branch. -/
def generate_storage_path (env : Env) (user_id : String) (conversation_id : Nat)
    (filename : String) (content_hash : Option String) : String :=
  let safe := sanitize_filename filename
  let unique_id :=
    match content_hash with
    | some h => if h ≠ "" then String.mk (h.data.take 8) else env.timeStr
    | none => env.timeStr
  user_id ++ "/conversations/" ++ toString conversation_id ++ "/" ++
    env.yearStr ++ "/" ++ env.monthStr ++ "/" ++ env.dayStr ++ "/" ++
    unique_id ++ "_" ++ safe

/-- `FileService.detect_content_type`: sniff the first 2048 bytes, falling
back to `application/octet-stream` when detection raises. -/
def detect_content_type (env : Env) (content : List Nat) : String :=
  match env.sniff (content.take 2048) with
  | some t => t
  | none => "application/octet-stream"

/-! ### Relational state

One row per table of interest.  `extra_metadata` (set only by the PIL
image-dimension probe, whose failures the route logs and ignores) and the
virus-scan queueing stub carry no behaviour any claim depends on; the
`virus_scanned` flag itself is kept because the upload route writes it. -/

/-- A row of the `attachments` table (`models/attachments_model.py` is not in
the provided sources; fields modelled from the spec data model and from how
the routes read and write them). -/
structure AttachmentRow where
  id : Nat
  uuid : String
  conversation_id : Nat
  uploader_id : String
  filename : String
  original_filename : String
  content_type : String
  file_size : Nat
  attachment_type : AttachmentType
  status : AttachmentStatus
  file_hash : String
  storage_path : String
  activity_status : AttachmentActivityStatus
  virus_scanned : Bool
  created_at : Nat
deriving DecidableEq, Repr

/-- A row of the `conversations` table (modelled from the spec: identifier,
owner identifier, status). -/
structure ConversationRow where
  id : Nat
  owner_id : String
  status : ConversationStatus
  model_choice : String
  model_instructions : String
deriving DecidableEq, Repr

/-- A row of the `messages` table (modelled from the spec). -/
structure MessageRow where
  id : Nat
  conversation_id : Nat
  role : MessageRole
  content : String
  parent_message_id : Option Nat
  created_at : Nat
deriving DecidableEq, Repr

/-- The persistent state visible to the routes: the three tables, the blob
store (path to bytes), and the id counters the database uses for freshly
inserted rows. -/
structure St where
  conversations : List ConversationRow
  attachments : List AttachmentRow
  messages : List MessageRow
  storage : List (String × List Nat)
  nextAttachmentId : Nat
  nextMessageId : Nat
deriving DecidableEq, Repr

/-- `verify_conversation_ownership` (in `route_helpers.py`): the conversation
with this id must belong to the user and not be deleted. -/
def conversationOwned (S : St) (conversation_id : Nat) (user : String) : Bool :=
  S.conversations.any (fun c =>
    decide (c.id = conversation_id) && decide (c.owner_id = user) &&
    !(decide (c.status = ConversationStatus.deleted)))

/-- The join used by the upload/download/delete routes: the attachment's
conversation row with a matching owner (no conversation-status filter
there). -/
def conversationJoinOwner (S : St) (conversation_id : Nat) (user : String) : Bool :=
  S.conversations.any (fun c =>
    decide (c.id = conversation_id) && decide (c.owner_id = user))

/-- Errors surfaced by the attachment routes (the `HTTPException`s raised by
`attachment_routes.py`, plus the pydantic request validation). -/
inductive RouteError where
  /-- 404: conversation or attachment lookup failed. -/
  | notFound
  /-- 413: `file_size` exceeds `settings.max_file_size`. -/
  | fileTooLarge
  /-- 400: per-conversation attachment count limit reached. -/
  | tooManyAttachments
  /-- 422: pydantic validation of the request body failed. -/
  | validationError
  /-- 400: actual byte length differs from the declared `file_size`. -/
  | sizeMismatch (expected got : Nat)
  /-- 409: duplicate content hash; carries the existing duplicate's filename
  from the error detail. -/
  | conflict (duplicateFilename : String)
  /-- 500: generic upload failure after an exception during the store step. -/
  | uploadFailed
  /-- 400: a batch update entry failed the key-membership check. -/
  | batchEntryInvalid
deriving DecidableEq, Repr

/-! ### Route: initiate upload (`initiate_attachment_upload`) -/

/-- Response of the initiate route. -/
structure UploadResponse where
  attachment_id : Nat
  uuid : String
  upload_url : Option String
  upload_method : String
deriving DecidableEq, Repr

/-- Request body of the initiate route (`AttachmentUploadRequest`). -/
structure UploadRequest where
  filename : String
  content_type : String
  file_size : Nat
deriving DecidableEq, Repr

/-- Pydantic validation of `AttachmentUploadRequest`: filename 1..255,
content type 1..100 and in the configured allow-list, `0 < file_size ≤ max`. -/
def uploadRequestValid (env : Env) (r : UploadRequest) : Bool :=
  decide (1 ≤ r.filename.length) && decide (r.filename.length ≤ 255) &&
  decide (1 ≤ r.content_type.length) && decide (r.content_type.length ≤ 100) &&
  decide (0 < r.file_size) && decide (r.file_size ≤ env.maxFileSize) &&
  decide (r.content_type ∈ env.allowedContentTypes)

/-- `initiate_attachment_upload`: validate, enforce the per-conversation
count limit over non-DELETED rows, insert a PENDING row with sentinel hash
`"pending"` and a pre-computed storage path (`generate_storage_path` called
without a content hash), and answer with the upload method.  The presigned
URL branch of the Azure backend degrades to the API method on failure. -/
def initiate_attachment_upload (env : Env) (S : St) (user : String)
    (conversation_id : Nat) (req : UploadRequest) :
    Except RouteError (UploadResponse × St) :=
  if !uploadRequestValid env req then .error .validationError
  else if !conversationOwned S conversation_id user then .error .notFound
  else if req.file_size > env.maxFileSize then .error .fileTooLarge
  else if (S.attachments.filter (fun a =>
            decide (a.conversation_id = conversation_id) &&
            !(decide (a.status = AttachmentStatus.deleted)))).length ≥
          env.maxAttachments then .error .tooManyAttachments
  else
    let row : AttachmentRow :=
      { id := S.nextAttachmentId
        uuid := env.freshUuid
        conversation_id := conversation_id
        uploader_id := user
        filename := req.filename
        original_filename := req.filename
        content_type := req.content_type
        file_size := req.file_size
        attachment_type := classify_attachment_type req.content_type (some req.filename)
        status := .pending
        file_hash := "pending"
        storage_path := generate_storage_path env user conversation_id req.filename none
        activity_status := .inactive
        virus_scanned := false
        created_at := env.nowTick }
    let S1 : St := { S with attachments := S.attachments ++ [row],
                            nextAttachmentId := S.nextAttachmentId + 1 }
    let resp : UploadResponse :=
      if env.presignFails then
        { attachment_id := row.id, uuid := row.uuid,
          upload_url := none, upload_method := "api" }
      else
        { attachment_id := row.id, uuid := row.uuid,
          upload_url := some env.presignUrl, upload_method := "direct" }
    .ok (resp, S1)

/-! ### Route: upload content (`upload_attachment_content`) -/

/-- Replace the row with the given id (the ORM mutates the fetched row in
place; the commit persists it). -/
def updateRow (rows : List AttachmentRow) (id : Nat) (newRow : AttachmentRow) :
    List AttachmentRow :=
  rows.map (fun r => if r.id = id then newRow else r)

/-- `db.delete(attachment)`: remove the row by primary key. -/
def deleteRow (rows : List AttachmentRow) (id : Nat) : List AttachmentRow :=
  rows.filter (fun r => !(decide (r.id = id)))

/-- The pending-row lookup of `upload_attachment_content`: attachment uuid,
conversation, ownership (via the join) and PENDING status must all match. -/
def findPendingRow (S : St) (user : String) (conversation_id : Nat)
    (attachment_uuid : String) : Option AttachmentRow :=
  if conversationJoinOwner S conversation_id user then
    S.attachments.find? (fun r =>
      decide (r.uuid = attachment_uuid) &&
      decide (r.conversation_id = conversation_id) &&
      decide (r.status = AttachmentStatus.pending))
  else none

/-- The duplicate check of `upload_attachment_content`: first UPLOADED row of
the same conversation with the same hash, excluding the row itself. -/
def findDuplicate (S : St) (conversation_id : Nat) (file_hash : String)
    (selfId : Nat) : Option AttachmentRow :=
  S.attachments.find? (fun r =>
    decide (r.conversation_id = conversation_id) &&
    decide (r.file_hash = file_hash) &&
    !(decide (r.id = selfId)) &&
    decide (r.status = AttachmentStatus.uploaded))

/-- The row as committed by a successful `upload_attachment_content`: content
type silently overridden by the sniffed type (with re-classification) when
they disagree, hash recorded, status UPLOADED, virus-scan flag cleared. -/
def uploadedRow (env : Env) (a : AttachmentRow) (content : List Nat) :
    AttachmentRow :=
  let detected := detect_content_type env content
  let a1 : AttachmentRow :=
    if detected ≠ a.content_type then
      { a with content_type := detected,
               attachment_type := classify_attachment_type detected (some a.filename) }
    else a
  { a1 with file_hash := env.sha256 content, status := .uploaded,
            virus_scanned := false }

/-- The state after a successful `upload_attachment_content` of `content`
into pending row `a`: the row replaced by `uploadedRow`, the bytes stored at
the pre-computed path (blob upload overwrites). -/
def afterUpload (env : Env) (S : St) (a : AttachmentRow) (content : List Nat) :
    St :=
  { S with attachments := updateRow S.attachments a.id (uploadedRow env a content),
           storage := (a.storage_path, content) ::
             S.storage.filter (fun kv => kv.1 ≠ a.storage_path) }

/-- The state committed by the duplicate-hash branch: the PENDING row deleted
before the 409 is raised. -/
def afterConflict (S : St) (pendingId : Nat) : St :=
  { S with attachments := deleteRow S.attachments pendingId }

/-- `upload_attachment_content`.  Returns the route outcome together with the
state as committed when the handler returns.  Faithful points: the
size-mismatch rejection happens before the `try` block, so it leaves the
PENDING row untouched; a duplicate hash deletes the PENDING row and commits
before raising 409; the sniffed content type silently overrides the declared
one and re-derives the classification; a storage failure marks the row FAILED
(keeping the already-applied content-type override) and commits; success sets
the hash, UPLOADED status and clears `virus_scanned`.  The store call's
return value is bound to a local variable and never written back, so
`storage_path` is unchanged on every path. -/
def upload_attachment_content (env : Env) (S : St) (user : String)
    (conversation_id : Nat) (attachment_uuid : String) (content : List Nat) :
    Except RouteError AttachmentRow × St :=
  match findPendingRow S user conversation_id attachment_uuid with
  | none => (.error .notFound, S)
  | some a =>
    if content.length ≠ a.file_size then
      (.error (.sizeMismatch a.file_size content.length), S)
    else
      let fileHash := env.sha256 content
      match findDuplicate S conversation_id fileHash a.id with
      | some dup =>
          (.error (.conflict dup.filename), afterConflict S a.id)
      | none =>
        let detected := detect_content_type env content
        let a1 : AttachmentRow :=
          if detected ≠ a.content_type then
            { a with content_type := detected,
                     attachment_type :=
                       classify_attachment_type detected (some a.filename) }
          else a
        if env.storeFails a.storage_path then
          (.error .uploadFailed,
           { S with attachments :=
               updateRow S.attachments a.id { a1 with status := .failed } })
        else
          (.ok (uploadedRow env a content), afterUpload env S a content)

/-! ### Route: list attachments (`list_conversation_attachments`) -/

/-- Insertion sort by creation time, newest first
(`order_by(Attachment.created_at.desc())`). -/
def insertByCreatedDesc (a : AttachmentRow) :
    List AttachmentRow → List AttachmentRow
  | [] => [a]
  | b :: rest =>
      if a.created_at ≥ b.created_at then a :: b :: rest
      else b :: insertByCreatedDesc a rest

/-- Sort attachment rows by `created_at` descending. -/
def sortByCreatedDesc (l : List AttachmentRow) : List AttachmentRow :=
  l.foldr insertByCreatedDesc []

/-- `list_conversation_attachments`: ownership check, filter to the
conversation, exclude DELETED unless `include_deleted`, newest first.  The
response wrapper only adds computed download/thumbnail URL strings for
UPLOADED rows, which no claim concerns, so the row list is returned. -/
def list_conversation_attachments (S : St) (user : String)
    (conversation_id : Nat) (include_deleted : Bool) :
    Except RouteError (List AttachmentRow) :=
  if !conversationOwned S conversation_id user then .error .notFound
  else
    .ok (sortByCreatedDesc (S.attachments.filter (fun a =>
      decide (a.conversation_id = conversation_id) &&
      (include_deleted || !(decide (a.status = AttachmentStatus.deleted))))))

/-! ### Route: batch activity update (`update_attachment_activity_status`) -/

/-- One entry of `BatchAttachmentActivityUpdate.updates`
(pydantic model `AttachmentActivityUpdate`). -/
structure ActivityUpdate where
  uuid : String
  activity_status : AttachmentActivityStatus
deriving DecidableEq, Repr

/-- The route's membership test `"uuid" in update` / `"activity_status" in
update`.  `update` is a pydantic `BaseModel`, which defines no
`__contains__`; Python falls back to `__iter__`, which yields
`(field_name, value)` tuples, and a `str` never equals a tuple, so the test
is `False` for every field name and every update object. -/
def pydanticModelContains (_field : String) (_u : ActivityUpdate) : Bool :=
  false

/-- `update_attachment_activity_status`.  The pydantic validator rejects an
empty `updates` list before the handler runs (modelled as a validation
error).  For a nonempty list the handler's first loop iteration evaluates
`if "uuid" not in update or "activity_status" not in update` which, by
`pydanticModelContains`, always raises the 400 `batchEntryInvalid` error, so
the update and count-reporting code below the loop is unreachable. -/
def update_attachment_activity_status (S : St) (user : String)
    (conversation_id : Nat) (updates : List ActivityUpdate) :
    Except RouteError (Nat × Nat) × St :=
  if updates.isEmpty then (.error .validationError, S)
  else if !conversationOwned S conversation_id user then (.error .notFound, S)
  else if updates.any (fun u =>
      !(pydanticModelContains "uuid" u) ||
      !(pydanticModelContains "activity_status" u)) then
    (.error .batchEntryInvalid, S)
  else
    -- Unreachable for nonempty updates; kept for the intended behaviour:
    -- apply to UPLOADED rows of the conversation, report counts.
    let wanted := updates.map (fun u => (u.uuid, u.activity_status))
    let isTarget := fun (a : AttachmentRow) =>
      decide (a.conversation_id = conversation_id) &&
      decide (a.uuid ∈ wanted.map Prod.fst) &&
      decide (a.status = AttachmentStatus.uploaded)
    let newRows := S.attachments.map (fun a =>
      if isTarget a then
        match (wanted.reverse.find? (fun kv => decide (kv.1 = a.uuid))) with
        | some kv => { a with activity_status := kv.2 }
        | none => a
      else a)
    let updated := (S.attachments.filter isTarget).length
    (.ok (updated, updates.length), { S with attachments := newRows })

/-! ### Route: message creation (`create_message` in
`conversation_routes.py`) -/

/-- The ephemeral attachment context resolved for one AI request. -/
structure AttachmentContext where
  uuid : String
  filename : String
  type : AttachmentType
  content_type : String
  file_size : Nat
  file_content : List Nat
deriving DecidableEq, Repr

/-- The attachment-selection query of `create_message`: requested uuids,
same conversation, UPLOADED status.  An empty request list skips the query. -/
def fetchActiveAttachments (S : St) (conversation_id : Nat)
    (uuids : List String) : List AttachmentRow :=
  if uuids.isEmpty then []
  else S.attachments.filter (fun a =>
    decide (a.uuid ∈ uuids) &&
    decide (a.conversation_id = conversation_id) &&
    decide (a.status = AttachmentStatus.uploaded))

/-- Per-attachment content retrieval in `create_message`: a failure to
retrieve from the blob store is logged and the attachment skipped. -/
def buildAttachmentContexts (S : St) (rows : List AttachmentRow) :
    List AttachmentContext :=
  rows.filterMap (fun a =>
    match (S.storage.find? (fun kv => decide (kv.1 = a.storage_path))) with
    | some kv => some { uuid := a.uuid, filename := a.filename,
                        type := a.attachment_type,
                        content_type := a.content_type,
                        file_size := a.file_size, file_content := kv.2 }
    | none => none)

/-- Response of `create_message` (`ChatResponse`). -/
structure ChatResponse where
  user_message : MessageRow
  assistant_reply : Option MessageRow
  error : Option String
deriving DecidableEq, Repr

/-- Errors out of `create_message`: the 404 of the ownership check, and the
`InvalidRequestError` that `db.refresh(user_message)` raises inside the
exception handler after the rollback expunged the flushed user message. -/
inductive MessageError where
  | notFound
  | refreshNotPersistent
deriving DecidableEq, Repr

/-- `create_message`.  The user message is added and flushed (visible inside
the transaction, not committed).  If `get_ai_response` succeeds, the
assistant message is added, the optional activity-preference write-back runs,
and the commit persists both messages.  If it raises, the handler calls
`db.rollback()` — which rolls the flushed INSERT back and expunges the
pending user-message instance — then `db.commit()` (now a no-op for that
row) and `db.refresh(user_message)`, which raises `InvalidRequestError`
because the instance is no longer persistent: the request fails and the user
message is not persisted. -/
def create_message (env : Env) (S : St) (user : String) (conversation_id : Nat)
    (content : String) (parent_message_id : Option Nat) (uuids : List String) :
    Except MessageError ChatResponse × St :=
  if !conversationOwned S conversation_id user then (.error .notFound, S)
  else
    let userMsg : MessageRow :=
      { id := S.nextMessageId, conversation_id := conversation_id,
        role := .user, content := content,
        parent_message_id := parent_message_id, created_at := env.nowTick }
    let activeRows := fetchActiveAttachments S conversation_id uuids
    let _contexts := buildAttachmentContexts S activeRows
    match env.ai with
    | .ok replyText =>
        let assistantMsg : MessageRow :=
          { id := S.nextMessageId + 1, conversation_id := conversation_id,
            role := .assistant, content := replyText,
            parent_message_id := some userMsg.id, created_at := env.nowTick }
        let rows1 :=
          if env.persistPrefs && !uuids.isEmpty then
            S.attachments.map (fun a =>
              if decide (a.conversation_id = conversation_id) &&
                 decide (a.status = AttachmentStatus.uploaded) then
                { a with activity_status :=
                    if a.uuid ∈ uuids then .active else .inactive }
              else a)
          else S.attachments
        (.ok { user_message := userMsg, assistant_reply := some assistantMsg,
               error := none },
         { S with messages := S.messages ++ [userMsg, assistantMsg],
                  attachments := rows1,
                  nextMessageId := S.nextMessageId + 2 })
    | .error _ =>
        (.error .refreshNotPersistent, S)

/-! ### DocumentExtractor (`services/ai_querying.py`)

The per-format extractors interact with external parsing libraries (PyPDF2,
python-docx, openpyxl, csv, json, text codecs) inside their own
`try/except`.  The whole library interaction of one extractor is abstracted
as `DocEnv.run kind bytes : Except String String` — the text it produces, or
the exception it raises; the surrounding control flow (dispatch by extension
first and MIME type second, the per-extractor failure placeholders, the
unsupported-type placeholder) is translated directly. -/

/-- Which per-format extractor `extract_text` dispatches to. -/
inductive ExtractorKind where
  | pdf
  | docx
  | excel
  | csv
  | json
  | textfile
deriving DecidableEq, Repr

/-- The external collaborators of `DocumentExtractor`. -/
structure DocEnv where
  /-- `mimetypes.guess_type(filename)[0]`, used when no content type is
  supplied. -/
  guessType : String → Option String
  /-- The library interaction of the selected extractor on the given bytes:
  extracted text, or the message of the exception it raised. -/
  run : ExtractorKind → List Nat → Except String String

/-- The bracketed placeholder each failing extractor returns from its own
`except` branch. -/
def failPlaceholder : ExtractorKind → String
  | .pdf => "[Failed to extract PDF content]"
  | .docx => "[Failed to extract Word document content]"
  | .excel => "[Failed to extract Excel content]"
  | .csv => "[Failed to extract CSV content]"
  | .json => "[Failed to extract JSON content]"
  | .textfile => "[Failed to extract text content]"

/-- The effective content type inside `extract_text`: the argument unless it
is `None` (or empty, which is falsy under `if not content_type:`), in which
case `mimetypes.guess_type` fills it in. -/
def effectiveContentType (denv : DocEnv) (filename : String)
    (content_type : Option String) : Option String :=
  match content_type with
  | some s => if s = "" then denv.guessType filename else some s
  | none => denv.guessType filename

/-- The dispatch chain of `DocumentExtractor.extract_text`: extension first,
MIME type second, in source order; `none` is the final `else` branch for
unsupported types. -/
def dispatchExtractor (denv : DocEnv) (filename : String)
    (content_type : Option String) : Option ExtractorKind :=
  let ext := pyLower (pathSuffix filename)
  let ect := effectiveContentType denv filename content_type
  if ext = ".pdf" || decide (ect = some "application/pdf") then some .pdf
  else if decide (ext ∈ [".docx", ".doc"]) ||
      decide (ect = some "application/vnd.openxmlformats-officedocument.wordprocessingml.document") ||
      decide (ect = some "application/msword") then some .docx
  else if decide (ext ∈ [".xlsx", ".xls"]) ||
      decide (ect = some "application/vnd.openxmlformats-officedocument.spreadsheetml.sheet") ||
      decide (ect = some "application/vnd.ms-excel") then some .excel
  else if ext = ".csv" || decide (ect = some "text/csv") then some .csv
  else if ext = ".json" || decide (ect = some "application/json") then some .json
  else if decide (ext ∈ [".txt", ".md", ".log"]) ||
      (match ect with
       | some s => !(decide (s = "")) && pyStartsWith s "text/"
       | none => false) then some .textfile
  else if decide (ext ∈ [".py", ".js", ".java", ".cpp", ".c", ".html", ".css", ".xml"])
    then some .textfile
  else none

/-- `DocumentExtractor.extract_text`.  Every selected extractor converts its
own exceptions into its bracketed placeholder; an unrecognized type yields
the unsupported-file placeholder.  The outer `except` branch (producing
`[Error extracting text from ...]`) is unreachable in this model because the
dispatch itself cannot raise and the sub-extractors absorb their failures. -/
def extract_text (denv : DocEnv) (content : List Nat) (filename : String)
    (content_type : Option String) : String :=
  match dispatchExtractor denv filename content_type with
  | some k =>
      match denv.run k content with
      | .ok t => t
      | .error _ => failPlaceholder k
  | none => "[Unable to extract text from " ++ filename ++ "]"

/-! ### TokenManager (`services/ai_querying.py`)

The tiktoken encoder for gpt-4 is abstracted as a `Tokenizer`: a pair of
fallible encode/decode functions.  Fallibility matters: tiktoken's `encode`
raises by default (`disallowed_special="all"`) when the text contains a
special token such as `<|endoftext|>`, so the source's `except` branch — the
4-characters-per-token heuristic — is reachable and is modelled
(`charFallback`).  The happy-path budget theorem is conditional on the three
facts the truncation argument needs from the real encoder: sub-additivity of
the token count over string concatenation, that re-encoding a decoded token
prefix does not yield more tokens than the prefix length, and that the
truncation marker costs at most the 20 reserved tokens. -/

/-- An abstract fallible tokenizer (model of the tiktoken gpt-4 encoding):
`.error` is an exception raised by the library call. -/
structure Tokenizer (τ : Type) where
  encode : String → Except String (List τ)
  decode : List τ → Except String String

/-- The visible truncation suffix appended by `truncate_to_token_limit`
(including the two newlines of the f-string). -/
def truncationMarker : String := "\n\n[... content truncated due to length ...]"

/-- The `except` branch of `truncate_to_token_limit`: cap at
`max_tokens * 4` characters, appending the marker when the cap cuts. -/
def charFallback (text : String) (max_tokens : Nat) : String :=
  if text.length > max_tokens * 4 then
    String.mk (text.data.take (max_tokens * 4)) ++ truncationMarker
  else text

/-- `TokenManager.truncate_to_token_limit`.  `tokens[:max_tokens - 20]` uses
Python slice semantics (`pySliceStop` handles a negative stop, which can only
occur for budgets below the 20-token reserve).  Any exception from the
encode or decode calls lands in the `except` branch, the
4-characters-per-token heuristic `charFallback`. -/
def truncate_to_token_limit {τ : Type} (tk : Tokenizer τ) (text : String)
    (max_tokens : Nat) : String :=
  match tk.encode text with
  | .error _ => charFallback text max_tokens
  | .ok tokens =>
      if tokens.length ≤ max_tokens then text
      else
        match tk.decode (tokens.take
            (pySliceStop tokens.length ((max_tokens : Int) - 20))) with
        | .ok truncated_text => truncated_text ++ truncationMarker
        | .error _ => charFallback text max_tokens

/-- Chunks of at most four characters, a concrete executable tokenizer used
to instantiate `Tokenizer` (mirroring the 4-characters-per-token
approximation the source itself uses as fallback). -/
def chunk4 : List Char → List (List Char)
  | [] => []
  | [a] => [[a]]
  | [a, b] => [[a, b]]
  | [a, b, c] => [[a, b, c]]
  | a :: b :: c :: d :: rest => [a, b, c, d] :: chunk4 rest

/-- A concrete never-raising tokenizer: 4-character chunks. -/
def chunkTokenizer : Tokenizer (List Char) :=
  { encode := fun s => .ok (chunk4 s.data)
    decode := fun ts => .ok (String.mk ts.flatten) }

/-- Whether `pat` occurs as a contiguous run inside the list. -/
def hasSub (pat : List Char) : List Char → Bool
  | [] => hasLead pat []
  | c :: t => hasLead pat (c :: t) || hasSub pat t

/-- The special token tiktoken refuses to encode by default. -/
def endOfTextToken : String := "<|endoftext|>"

/-- A character-level tokenizer — one token per character, the density dense
non-Latin text approaches under the real encoder — whose encode raises on
text containing `<|endoftext|>`, exactly as tiktoken's `encode` does by
default for disallowed special tokens.  Exhibits the reachable fallback
path of `truncate_to_token_limit`. -/
def rawCharTokenizer : Tokenizer Char :=
  { encode := fun s =>
      if hasSub endOfTextToken.data s.data then .error "disallowed special token"
      else .ok s.data
    decode := fun ts => .ok (String.mk ts) }

/-- Eighty dense characters followed by the special token: the encoder
raises, the char-fallback cuts at 4 * 20 = 80 characters and appends the
43-character marker, and the 123-character result re-encodes to 123 tokens —
far over a budget of 20. -/
def ctext : String := String.mk (List.replicate 80 'x') ++ endOfTextToken

/-! ### Concrete scenario data for witnesses and counterexamples -/

/-- A concrete environment for the executable scenarios (AI call failing;
per-claim variants adjust single fields). -/
def envW : Env :=
  { yearStr := "2026", monthStr := "10", dayStr := "12",
    timeStr := "103045123456"
    sha256 := fun bs => natsKey bs
    sniff := fun _ => some "application/pdf"
    storeFails := fun _ => false
    presignFails := true, presignUrl := "", freshUuid := "uuid-new"
    nowTick := 5
    ai := .error "provider down"
    maxFileSize := 1000000, maxAttachments := 20
    allowedContentTypes := ["application/pdf", "image/png", "text/plain"]
    persistPrefs := false }

/-- A conversation owned by alice. -/
def convW : ConversationRow :=
  { id := 1, owner_id := "alice", status := .active,
    model_choice := "gpt-4.1", model_instructions := "be helpful" }

/-- A PENDING attachment row awaiting its content (3 declared bytes). -/
def rowA : AttachmentRow :=
  { id := 1, uuid := "ua", conversation_id := 1, uploader_id := "alice",
    filename := "report.pdf", original_filename := "report.pdf",
    content_type := "application/pdf", file_size := 3,
    attachment_type := .document, status := .pending, file_hash := "pending",
    storage_path := "alice/conversations/1/2026/10/12/103045123456_report.pdf",
    activity_status := .inactive, virus_scanned := false, created_at := 1 }

/-- A second PENDING row in the same conversation, same declared size. -/
def rowB : AttachmentRow :=
  { rowA with id := 2, uuid := "ub", filename := "copy.pdf",
              original_filename := "copy.pdf",
              storage_path := "alice/conversations/1/2026/10/12/103045123456_copy.pdf",
              created_at := 2 }

/-- An UPLOADED row (for the batch-activity and selection scenarios). -/
def rowC : AttachmentRow :=
  { rowA with id := 3, uuid := "uc", filename := "notes.txt",
              original_filename := "notes.txt", content_type := "text/plain",
              status := .uploaded, file_hash := "9-9-9",
              storage_path := "alice/conversations/1/2026/10/12/103045123456_notes.txt",
              created_at := 3 }

/-- A soft-deleted row (for the listing/selection exclusion scenarios). -/
def rowD : AttachmentRow :=
  { rowA with id := 4, uuid := "ud", filename := "old.txt",
              original_filename := "old.txt", status := .deleted,
              file_hash := "8-8-8",
              storage_path := "alice/conversations/1/2026/10/12/103045123456_old.txt",
              created_at := 4 }

/-- Base state: one conversation, rows A (pending), B (pending),
C (uploaded), D (deleted). -/
def S0W : St :=
  { conversations := [convW]
    attachments := [rowA, rowB, rowC, rowD]
    messages := []
    storage := [(rowC.storage_path, [9, 9, 9])]
    nextAttachmentId := 5
    nextMessageId := 1 }

/-- The three uploaded bytes for the dedup scenario. -/
def bytesW : List Nat := [1, 2, 3]

/-- A concrete document-extractor environment: extraction succeeds exactly on
nonempty byte strings. -/
def denvW : DocEnv :=
  { guessType := fun _ => none
    run := fun _ c => if c.isEmpty then .error "parse failure" else .ok "the text" }

/-- A 100-character string for the truncation witness. -/
def longText : String := String.mk (List.replicate 100 'x')

/-- The unsupported-file placeholder of `extract_text`
(`[Unable to extract text from {filename}]`). -/
def unsupportedPlaceholder (filename : String) : String :=
  "[Unable to extract text from " ++ filename ++ "]"

/-! ### The classifier as an ordered rule list

Following the spec's design note, the cascading `elif` chain of
`classify_attachment_type` is re-expressed as an ordered list of
predicate-to-tag rules evaluated first-match, defaulting to OTHER; the
equivalence with the translated code is proved below. -/

/-- A classification rule: a predicate on (content type, optional filename)
and the tag it assigns. -/
def ClassifierRule : Type :=
  (String → Option String → Bool) × AttachmentType

/-- First-match evaluation of an ordered rule list, defaulting to OTHER. -/
def applyRules : List ClassifierRule → String → Option String → AttachmentType
  | [], _, _ => .other
  | rule :: rest, ct, f => if rule.1 ct f then rule.2 else applyRules rest ct f

/-- The ordered rules of the classifier as the code implements them.  Note
the third rule fires only for a supplied, non-empty filename (Python
`if filename:`), and can assign DOCUMENT to any MIME type — including
`video/*` — when the extension is in the code allow-list. -/
def classification_rules : List ClassifierRule :=
  [(fun ct _ => pyStartsWith (pyLower ct) "image/", .image),
   (fun ct _ => decide (pyLower ct ∈ document_types), .document),
   (fun ct f => (match f with
                 | some s =>
                    s ≠ "" &&
                    (decide (pyLower (pathSuffix s) ∈ code_extensions) ||
                     pyStartsWith (pyLower ct) "text/")
                 | none => false), .document),
   (fun ct _ => pyStartsWith (pyLower ct) "audio/", .other),
   (fun ct _ => decide (pyLower ct ∈ archive_types), .other),
   (fun ct _ => pyStartsWith (pyLower ct) "video/", .other)]

/-- A valid initiation request for the storage-path scenario. -/
def reqW : UploadRequest :=
  { filename := "new.pdf", content_type := "application/pdf", file_size := 10 }

/-- The row `initiate_attachment_upload envW S0W "alice" 1 reqW` inserts. -/
def rowNew : AttachmentRow :=
  { id := 5, uuid := "uuid-new", conversation_id := 1, uploader_id := "alice",
    filename := "new.pdf", original_filename := "new.pdf",
    content_type := "application/pdf", file_size := 10,
    attachment_type := .document, status := .pending, file_hash := "pending",
    storage_path := "alice/conversations/1/2026/10/12/103045123456_new.pdf",
    activity_status := .inactive, virus_scanned := false, created_at := 5 }

/-- The state after that initiation. -/
def S1W : St :=
  { S0W with attachments := S0W.attachments ++ [rowNew], nextAttachmentId := 6 }

/-- The response of that initiation (presigned-URL generation failing, so the
API upload method). -/
def respW : UploadResponse :=
  { attachment_id := 5, uuid := "uuid-new", upload_url := none,
    upload_method := "api" }

/-- What the default listing of conversation 1 in `S0W` returns: the
non-deleted rows, newest first. -/
def listedW : List AttachmentRow := [rowC, rowB, rowA]

-- ======================= Theorems =======================

/-! #### Shared helper lemmas -/

theorem removeDotDot_sub (l : List Char) : ∀ c ∈ removeDotDot l, c ∈ l := by
  induction l using removeDotDot.induct with
  | case1 rest ih =>
      intro c hc
      rw [removeDotDot] at hc
      have := ih c hc
      simp [this]
  | case2 a rest h ih =>
      intro c hc
      rw [removeDotDot] at hc
      · rcases List.mem_cons.mp hc with h1 | h1
        · simp [h1]
        · simpa using Or.inr (ih c h1)
      · exact h
  | case3 =>
      intro c hc
      simp [removeDotDot] at hc

theorem splitext_fst_sub (l : List Char) : ∀ c ∈ (splitext l).1, c ∈ l := by
  intro c hc
  unfold splitext at hc
  split at hc
  · exact hc
  · split at hc
    · exact List.mem_of_mem_take hc
    · exact hc

theorem splitext_snd_sub (l : List Char) : ∀ c ∈ (splitext l).2, c ∈ l := by
  intro c hc
  unfold splitext at hc
  split at hc
  · cases hc
  · split at hc
    · exact List.mem_of_mem_drop hc
    · cases hc

theorem capLength_sub (l : List Char) : ∀ c ∈ capLength l, c ∈ l := by
  unfold capLength
  intro c hc
  by_cases h : l.length > 255
  · simp only [h, if_pos] at hc
    rcases List.mem_append.mp hc with h1 | h1
    · exact splitext_fst_sub l c (List.mem_of_mem_take h1)
    · exact splitext_snd_sub l c h1
  · simpa [h] using hc

theorem fixLeadingDot_cases (l : List Char) :
    ∀ c ∈ fixLeadingDot l, c = '_' ∨ c ∈ l := by
  unfold fixLeadingDot
  intro c hc
  split at hc
  · rcases List.mem_cons.mp hc with h1 | h1
    · exact Or.inl h1
    · exact Or.inr (by simp [h1])
  · exact Or.inr hc

theorem fixLeadingDot_head (l : List Char) :
    (fixLeadingDot l).head? ≠ some '.' := by
  unfold fixLeadingDot
  split
  · simp
  · next h =>
      cases l with
      | nil => simp
      | cons a rest =>
          have ha : a ≠ '.' := fun hh => h rest (by rw [hh])
          simp [ha]

theorem sanitizeChars_allowed (l : List Char) :
    ∀ c ∈ sanitizeChars l, allowedChar c = true := by
  unfold sanitizeChars
  intro c hc
  rcases fixLeadingDot_cases _ c hc with h | h
  · subst h; decide
  · have h6 := List.mem_filter.mp h
    have h5 := List.mem_filter.mp h6.1
    have h4 := removeDotDot_sub _ c h5.1
    have h3 := capLength_sub _ c h4
    by_cases he : (((l.map (fun c => if c = ' ' then '_' else c)).filter
        allowedChar)).isEmpty
    · simp only [he, if_pos] at h3
      have hchars : ∀ x ∈ "unnamed_file".data, allowedChar x = true := by decide
      exact hchars c h3
    · simp only [he, if_neg, Bool.false_eq_true, not_false_iff] at h3
      exact (List.mem_filter.mp h3).2

theorem find?_eq_some_unique {α : Type} (l : List α) (p : α → Bool) (a : α)
    (ha : a ∈ l) (hpa : p a = true)
    (huniq : ∀ x ∈ l, p x = true → x = a) : l.find? p = some a := by
  induction l with
  | nil => cases ha
  | cons b t ih =>
      by_cases hpb : p b = true
      · have hb : b = a := huniq b (List.mem_cons_self b t) hpb
        subst hb
        simp [List.find?, hpb]
      · have hpb2 : p b = false := by
          cases h : p b
          · rfl
          · exact absurd h hpb
        have hat : a ∈ t := by
          rcases List.mem_cons.mp ha with h1 | h1
          · exact absurd (h1 ▸ hpa) hpb
          · exact h1
        simp only [List.find?, hpb2]
        exact ih hat (fun x hx hpx => huniq x (List.mem_cons_of_mem b hx) hpx)

theorem countP_eq_one_unique {α : Type} (l : List α) (p : α → Bool) (a : α)
    (hl : l.Nodup) (ha : a ∈ l) (hpa : p a = true)
    (huniq : ∀ x ∈ l, p x = true → x = a) : l.countP p = 1 := by
  induction l with
  | nil => cases ha
  | cons b t ih =>
      by_cases hpb : p b = true
      · have hb : b = a := huniq b (List.mem_cons_self b t) hpb
        have hzero : t.countP p = 0 := by
          rw [List.countP_eq_zero]
          intro x hx hpx
          have := huniq x (List.mem_cons_of_mem b hx) hpx
          subst this
          subst hb
          exact (List.nodup_cons.mp hl).1 hx
        simp [List.countP_cons, hzero, hpb]
      · have hpb2 : p b = false := by
          cases h : p b
          · rfl
          · exact absurd h hpb
        have hat : a ∈ t := by
          rcases List.mem_cons.mp ha with h1 | h1
          · exact absurd (h1 ▸ hpa) hpb
          · exact h1
        have hrec := ih (List.nodup_cons.mp hl).2 hat
          (fun x hx hpx => huniq x (List.mem_cons_of_mem b hx) hpx)
        simp [List.countP_cons, hrec, hpb2]

/-! #### C4: filename sanitization -/

set_option maxRecDepth 8192 in
/-- Claim C4 as stated is false: sanitization is not idempotent and the empty
placeholder and 255-byte cap are both defeated.  `'..'` survives the
character filter, is then removed in full, and the emptiness check has
already passed, so the result is the empty string — whose re-sanitization is
`unnamed_file`; and an input whose extension alone is longer than 255 bytes
escapes the cap because the cap truncates only the stem. -/
theorem C4_counterexample :
    sanitize_filename (sanitize_filename "..") ≠ sanitize_filename ".." ∧
    sanitize_filename ".." = "" ∧
    sanitize_filename "" = "unnamed_file" ∧
    255 < (sanitize_filename (String.mk ('a' :: '.' :: List.replicate 300 'b'))).length := by
  refine ⟨by decide, by decide, by decide, ?_⟩
  decide

/-- Claim C4 (amended): sanitization output never contains a path separator
(`'/'` or `'\'`) and never begins with `'.'` — in particular never with
`".."`; idempotence, the 255-byte cap, and the empty-result placeholder do
not hold in general (see the counterexample). -/
theorem C4_sanitize_safe (f : String) :
    '/' ∉ (sanitize_filename f).data ∧
    '\\' ∉ (sanitize_filename f).data ∧
    (sanitize_filename f).data.head? ≠ some '.' := by
  refine ⟨fun h => ?_, fun h => ?_, ?_⟩
  · have := sanitizeChars_allowed (nfkdAscii f.data) _ h
    simp [allowedChar] at this
  · have := sanitizeChars_allowed (nfkdAscii f.data) _ h
    simp [allowedChar] at this
  · show (sanitizeChars (nfkdAscii f.data)).head? ≠ some '.'
    unfold sanitizeChars
    exact fixLeadingDot_head _

/-- Witness for the amended C4 at a concrete input. -/
theorem C4_witness :
    '/' ∉ (sanitize_filename "../../etc/passwd").data ∧
    '\\' ∉ (sanitize_filename "../../etc/passwd").data ∧
    (sanitize_filename "../../etc/passwd").data.head? ≠ some '.' :=
  C4_sanitize_safe "../../etc/passwd"

/-! #### C6: attachment classification -/

/-- Claim C6 as stated is false at two explicit inputs: the extension rule
precedes the video rule, so `video/mp4` with a `.py` filename is DOCUMENT
(the claim says video/mp4 is never DOCUMENT); and the `text/` rule is guarded
by a truthy filename, so `text/html` with an empty filename is OTHER (the
claim's rule 3 would make it DOCUMENT). -/
theorem C6_counterexample :
    classify_attachment_type "video/mp4" (some "movie.py") = .document ∧
    classify_attachment_type "text/html" (some "") = .other ∧
    classify_attachment_type "text/html" none = .other := by
  refine ⟨by decide, by decide, by decide⟩

/-- Claim C6 (amended): the classifier is a pure function equal to
first-match evaluation of the ordered rule list `classification_rules`
(image, document MIME set, code-extension-or-text for a non-empty filename,
audio, archive, video, default OTHER); a `.mp4` file declared `video/mp4` is
OTHER, though an extension from the code allow-list overrides `video/*` to
DOCUMENT. -/
theorem C6_classify_rules :
    (∀ (ct : String) (f : Option String),
      classify_attachment_type ct f = applyRules classification_rules ct f) ∧
    classify_attachment_type "video/mp4" (some "movie.mp4") = .other := by
  constructor
  · intro ct f
    rfl
  · decide

/-! #### C3: token truncation -/

theorem chunk4_length (l : List Char) :
    (chunk4 l).length = (l.length + 3) / 4 := by
  induction l using chunk4.induct with
  | case1 => simp [chunk4]
  | case2 a => simp [chunk4]
  | case3 a b => simp [chunk4]
  | case4 a b c => simp [chunk4]
  | case5 a b c d rest ih => rw [chunk4]; simp [ih]; omega

theorem chunk4_mem_len (l : List Char) : ∀ c ∈ chunk4 l, c.length ≤ 4 := by
  induction l using chunk4.induct with
  | case1 => intro c hc; simp [chunk4] at hc
  | case2 a => intro c hc; simp [chunk4] at hc; simp [hc]
  | case3 a b => intro c hc; simp [chunk4] at hc; simp [hc]
  | case4 a b c => intro x hx; simp [chunk4] at hx; simp [hx]
  | case5 a b c d rest ih =>
      intro x hx
      rw [chunk4] at hx
      rcases List.mem_cons.mp hx with h1 | h1
      · subst h1; simp
      · exact ih x h1

theorem flatten_len_le (ts : List (List Char)) (h : ∀ c ∈ ts, c.length ≤ 4) :
    ts.flatten.length ≤ 4 * ts.length := by
  induction ts with
  | nil => simp
  | cons a t ih =>
      simp only [List.flatten_cons, List.length_append, List.length_cons]
      have h1 := h a (List.mem_cons_self a t)
      have h2 := ih (fun c hc => h c (List.mem_cons_of_mem a hc))
      omega

theorem chunkTokenizer_sub :
    ∀ (a b : String) (ta tb tab : List (List Char)),
      chunkTokenizer.encode a = .ok ta → chunkTokenizer.encode b = .ok tb →
      chunkTokenizer.encode (a ++ b) = .ok tab →
      tab.length ≤ ta.length + tb.length := by
  intro a b ta tb tab ha hb hab
  have h1 : chunk4 a.data = ta := Except.ok.inj ha
  have h2 : chunk4 b.data = tb := Except.ok.inj hb
  have h3 : chunk4 (a ++ b).data = tab := Except.ok.inj hab
  subst h1
  subst h2
  subst h3
  have hd : (a ++ b).data = a.data ++ b.data := rfl
  rw [hd, chunk4_length, chunk4_length, chunk4_length, List.length_append]
  omega

theorem chunkTokenizer_reencode :
    ∀ (s : String) (ts : List (List Char)) (k : Nat) (d : String)
      (td : List (List Char)),
      chunkTokenizer.encode s = .ok ts →
      chunkTokenizer.decode (ts.take k) = .ok d →
      chunkTokenizer.encode d = .ok td → td.length ≤ k := by
  intro s ts k d td hs hdec htd
  have h1 : chunk4 s.data = ts := Except.ok.inj hs
  subst h1
  have h2 : String.mk ((chunk4 s.data).take k).flatten = d := Except.ok.inj hdec
  subst h2
  have h3 : chunk4 (String.mk ((chunk4 s.data).take k).flatten).data = td :=
    Except.ok.inj htd
  subst h3
  show (chunk4 ((chunk4 s.data).take k).flatten).length ≤ k
  rw [chunk4_length]
  have hm : ∀ c ∈ (chunk4 s.data).take k, c.length ≤ 4 :=
    fun c hc => chunk4_mem_len _ c (List.mem_of_mem_take hc)
  have hlen := flatten_len_le _ hm
  have htake : ((chunk4 s.data).take k).length = min k (chunk4 s.data).length :=
    List.length_take k (chunk4 s.data)
  omega

set_option maxRecDepth 8192 in
/-- Claim C3 as stated is false on the reachable `except` path: tiktoken's
encode raises by default on text containing the `<|endoftext|>` special
token, so truncation falls back to the 4-characters-per-token heuristic,
which cuts `4 * N = 80` characters and appends the 43-character marker — a
character-level (dense-text) tokenizer then counts 123 tokens in the output
against the budget `N = 20`. -/
theorem C3_counterexample :
    rawCharTokenizer.encode (truncate_to_token_limit rawCharTokenizer ctext 20) =
      .ok (truncate_to_token_limit rawCharTokenizer ctext 20).data ∧
    (truncate_to_token_limit rawCharTokenizer ctext 20).data.length = 123 ∧
    ¬((truncate_to_token_limit rawCharTokenizer ctext 20).data.length ≤ 20) := by
  refine ⟨rfl, by decide, by decide⟩

/-- Claim C3 (amended): when the tokenizer raises nowhere along the taken
path, `truncate_to_token_limit` returns the text unchanged whenever its
token count is within the budget, and for `N ≥ 20` the output re-encodes to
at most `N` tokens — given sub-additive token counts over concatenation,
non-expanding re-encoding of decoded token prefixes, and a marker within the
20 reserved tokens, all satisfied by the tiktoken gpt-4 encoder this
abstracts.  When encode or decode raises (tiktoken's encode does so on
disallowed special tokens by default), the fallback guarantees only the
character heuristic: the output is at most `4 * N` characters plus the
marker, and the token budget can be exceeded (see the counterexample). -/
theorem C3_truncate_token_budget {τ : Type} (tk : Tokenizer τ)
    (hsub : ∀ (a b : String) (ta tb tab : List τ), tk.encode a = .ok ta →
      tk.encode b = .ok tb → tk.encode (a ++ b) = .ok tab →
      tab.length ≤ ta.length + tb.length)
    (hre : ∀ (s : String) (ts : List τ) (k : Nat) (d : String) (td : List τ),
      tk.encode s = .ok ts → tk.decode (ts.take k) = .ok d →
      tk.encode d = .ok td → td.length ≤ k)
    (tm : List τ) (hm : tk.encode truncationMarker = .ok tm)
    (hm20 : tm.length ≤ 20)
    (text : String) (N : Nat) (hN : 20 ≤ N) :
    (∀ ts, tk.encode text = .ok ts → ts.length ≤ N →
      truncate_to_token_limit tk text N = text) ∧
    (∀ ts d td tout, tk.encode text = .ok ts →
      tk.decode (ts.take (pySliceStop ts.length ((N : Int) - 20))) = .ok d →
      tk.encode d = .ok td →
      tk.encode (truncate_to_token_limit tk text N) = .ok tout →
      tout.length ≤ N) ∧
    (∀ e, tk.encode text = .error e →
      (truncate_to_token_limit tk text N).length ≤
        4 * N + truncationMarker.length) ∧
    (∀ ts e, tk.encode text = .ok ts → ¬ts.length ≤ N →
      tk.decode (ts.take (pySliceStop ts.length ((N : Int) - 20))) = .error e →
      (truncate_to_token_limit tk text N).length ≤
        4 * N + truncationMarker.length) := by
  have hfb : ∀ M : Nat,
      (charFallback text M).length ≤ 4 * M + truncationMarker.length := by
    intro M
    unfold charFallback
    by_cases hl : text.length > M * 4
    · rw [if_pos hl]
      rw [String.length_append]
      have h1 : (String.mk (text.data.take (M * 4))).length =
          (text.data.take (M * 4)).length := rfl
      rw [h1]
      have h2 : (text.data.take (M * 4)).length ≤ M * 4 := by
        rw [List.length_take]
        omega
      omega
    · rw [if_neg hl]
      omega
  refine ⟨?_, ?_, ?_, ?_⟩
  · intro ts hts hlen
    unfold truncate_to_token_limit
    rw [hts]
    dsimp only
    rw [if_pos hlen]
  · intro ts d td tout hts hdec htd htout
    by_cases hfit : ts.length ≤ N
    · have hout : truncate_to_token_limit tk text N = text := by
        unfold truncate_to_token_limit
        rw [hts]
        dsimp only
        rw [if_pos hfit]
      rw [hout, hts] at htout
      have heq : ts = tout := Except.ok.inj htout
      rw [← heq]
      exact hfit
    · have hout : truncate_to_token_limit tk text N = d ++ truncationMarker := by
        unfold truncate_to_token_limit
        rw [hts]
        dsimp only
        rw [if_neg hfit, hdec]
      rw [hout] at htout
      have hb := hsub d truncationMarker td tm tout htd hm htout
      have hk := hre text ts (pySliceStop ts.length ((N : Int) - 20)) d td
        hts hdec htd
      have hkN : pySliceStop ts.length ((N : Int) - 20) ≤ N - 20 := by
        unfold pySliceStop
        rw [if_neg (by omega : ¬((N : Int) - 20 < 0))]
        have ht : ((N : Int) - 20).toNat = N - 20 := by omega
        rw [ht]
        omega
      omega
  · intro e he
    unfold truncate_to_token_limit
    rw [he]
    exact hfb N
  · intro ts e hts hnfit hdec
    unfold truncate_to_token_limit
    rw [hts]
    dsimp only
    rw [if_neg hnfit, hdec]
    exact hfb N

/-- Witness for the amended C3: the never-raising chunk tokenizer at a
100-character text with budget 21 (the output re-encodes to at most 21
tokens), and a 2-character text that fits and is returned unchanged. -/
theorem C3_witness :
    (chunk4 (truncate_to_token_limit chunkTokenizer longText 21).data).length ≤ 21 ∧
    truncate_to_token_limit chunkTokenizer (String.mk ['h', 'i']) 21 =
      String.mk ['h', 'i'] := by
  constructor
  · exact (C3_truncate_token_budget chunkTokenizer chunkTokenizer_sub
      chunkTokenizer_reencode (chunk4 truncationMarker.data) rfl (by decide)
      longText 21 (by decide)).2.1
      (chunk4 longText.data) (String.mk ['x', 'x', 'x', 'x'])
      (chunk4 (String.mk ['x', 'x', 'x', 'x']).data)
      (chunk4 (truncate_to_token_limit chunkTokenizer longText 21).data)
      rfl (by rfl) rfl rfl
  · exact (C3_truncate_token_budget chunkTokenizer chunkTokenizer_sub
      chunkTokenizer_reencode (chunk4 truncationMarker.data) rfl (by decide)
      (String.mk ['h', 'i']) 21 (by decide)).1
      (chunk4 (String.mk ['h', 'i']).data) rfl (by decide)

/-! #### C7: document extraction boundary -/

/-- Claim C7: `extract_text` is total (it returns a string on every input)
and absorbs every failure: either the selected extractor succeeded and its
text is passed through, or it raised and the per-format bracketed placeholder
is returned, or no extractor matched and the unsupported-file placeholder is
returned — an exception never crosses the boundary. -/
theorem C7_extract_text_boundary (denv : DocEnv) (content : List Nat)
    (filename : String) (content_type : Option String) :
    (∃ k t, dispatchExtractor denv filename content_type = some k ∧
       denv.run k content = .ok t ∧
       extract_text denv content filename content_type = t) ∨
    (∃ k e, dispatchExtractor denv filename content_type = some k ∧
       denv.run k content = .error e ∧
       extract_text denv content filename content_type = failPlaceholder k) ∨
    (dispatchExtractor denv filename content_type = none ∧
       extract_text denv content filename content_type =
         unsupportedPlaceholder filename) := by
  unfold extract_text unsupportedPlaceholder
  cases hd : dispatchExtractor denv filename content_type with
  | none => exact Or.inr (Or.inr ⟨rfl, rfl⟩)
  | some k =>
      dsimp only
      cases hr : denv.run k content with
      | ok t => exact Or.inl ⟨k, t, rfl, hr, rfl⟩
      | error e => exact Or.inr (Or.inl ⟨k, e, rfl, hr, rfl⟩)

/-! #### C9: soft-deleted exclusion -/

theorem mem_insertByCreatedDesc (a x : AttachmentRow) (l : List AttachmentRow) :
    x ∈ insertByCreatedDesc a l ↔ x = a ∨ x ∈ l := by
  induction l with
  | nil => simp [insertByCreatedDesc]
  | cons b t ih =>
      unfold insertByCreatedDesc
      by_cases h : a.created_at ≥ b.created_at
      · rw [if_pos h]
        simp [List.mem_cons]
      · rw [if_neg h]
        simp only [List.mem_cons, ih]
        tauto

theorem mem_sortByCreatedDesc (x : AttachmentRow) (l : List AttachmentRow) :
    x ∈ sortByCreatedDesc l ↔ x ∈ l := by
  unfold sortByCreatedDesc
  induction l with
  | nil => simp
  | cons b t ih =>
      simp only [List.foldr_cons, mem_insertByCreatedDesc, ih, List.mem_cons]

/-- Claim C9: a soft-deleted attachment is never part of the default listing
(`include_deleted = false`) and is never resolved by the message-creation
attachment-selection query, whatever set of public identifiers is
requested. -/
theorem C9_soft_deleted_excluded (S : St) (user : String) (cid : Nat)
    (uuids : List String) (r : AttachmentRow)
    (hr : r.status = .deleted) :
    (∀ out, list_conversation_attachments S user cid false = .ok out → r ∉ out) ∧
    r ∉ fetchActiveAttachments S cid uuids := by
  constructor
  · intro out hout hmem
    unfold list_conversation_attachments at hout
    split at hout
    · cases hout
    · have hlist : out = sortByCreatedDesc (S.attachments.filter (fun a =>
          decide (a.conversation_id = cid) &&
          (false || !(decide (a.status = AttachmentStatus.deleted))))) := by
        cases hout
        rfl
      subst hlist
      have hmem2 := (mem_sortByCreatedDesc r _).mp hmem
      have hpred := (List.mem_filter.mp hmem2).2
      simp [hr] at hpred
  · intro hmem
    unfold fetchActiveAttachments at hmem
    split at hmem
    · cases hmem
    · have hpred := (List.mem_filter.mp hmem).2
      simp [hr] at hpred

/-- Witness for C9: the soft-deleted row `rowD` of the concrete state is
neither in the default listing nor selectable by uuid. -/
theorem C9_witness :
    rowD ∉ listedW ∧ rowD ∉ fetchActiveAttachments S0W 1 ["ud", "uc"] :=
  ⟨(C9_soft_deleted_excluded S0W "alice" 1 ["ud", "uc"] rowD (by decide)).1
      listedW (by rfl),
   (C9_soft_deleted_excluded S0W "alice" 1 ["ud", "uc"] rowD (by decide)).2⟩

/-! #### C8: batch activity update (code bug) -/

/-- Claim C8 fails against the code: the spec's scenario (one valid UPLOADED
id plus one nonexistent id) is answered with the 400 validation error, not
with `updated==1, requested==2`.  The handler checks
`"uuid" not in update` on a pydantic model, which iterates
`(field, value)` pairs, so the membership test is always false and every
nonempty batch is rejected before any update (see
`pydanticModelContains`). -/
theorem C8_batch_rejected_scenarioD :
    update_attachment_activity_status S0W "alice" 1
        [{ uuid := "uc", activity_status := .active },
         { uuid := "missing", activity_status := .inactive }] =
      (.error .batchEntryInvalid, S0W) := by
  rfl

/-! #### C5: user message lost on AI failure (code bug) -/

/-- Claim C5 fails against the code: with the AI provider raising, the
handler's `db.rollback()` rolls back the flushed user-message INSERT and
expunges the instance, the following `db.commit()` persists nothing, and
`db.refresh(user_message)` raises `InvalidRequestError` — the request fails
and no user message is stored, instead of the claimed
`{user_message, assistant_reply: null, error}` response. -/
theorem C5_user_message_lost :
    create_message envW S0W "alice" 1 "hello" none [] =
      (.error .refreshNotPersistent, S0W) ∧
    S0W.messages = [] := by
  exact ⟨rfl, rfl⟩

/-! #### C2: size-mismatch handling -/

theorem findPendingRow_found (S : St) (user : String) (cid : Nat) (u : String)
    (a : AttachmentRow) (h : findPendingRow S user cid u = some a) :
    a ∈ S.attachments ∧ a.uuid = u ∧ a.conversation_id = cid ∧
    a.status = .pending := by
  unfold findPendingRow at h
  split at h
  · have hmem := List.mem_of_find?_eq_some h
    have hp := List.find?_some h
    simp only [Bool.and_eq_true, decide_eq_true_eq] at hp
    exact ⟨hmem, hp.1.1, hp.1.2, hp.2⟩
  · cases h

/-- Claim C2 as stated is false: after a size-mismatch rejection the PENDING
row is neither marked FAILED nor removed — the 400 is raised before the
`try` block, so the row is left untouched in PENDING status. -/
theorem C2_counterexample :
    (upload_attachment_content envW S0W "alice" 1 "ua" [1, 2]).1 =
      .error (.sizeMismatch 3 2) ∧
    rowA ∈ (upload_attachment_content envW S0W "alice" 1 "ua" [1, 2]).2.attachments ∧
    rowA.status = .pending := by
  refine ⟨rfl, by decide, rfl⟩

/-- Claim C2 (amended): a byte-length mismatch against the declared
`file_size` is a hard 400 rejection that leaves the state unchanged — no row
is in UPLOADED status for the attachment, and the PENDING row remains
PENDING (available for retry), neither marked FAILED nor removed. -/
theorem C2_size_mismatch_row_stays_pending (env : Env) (S : St) (user : String)
    (cid : Nat) (u : String) (content : List Nat) (a : AttachmentRow)
    (hfind : findPendingRow S user cid u = some a)
    (hlen : content.length ≠ a.file_size) :
    upload_attachment_content env S user cid u content =
      (.error (.sizeMismatch a.file_size content.length), S) ∧
    a ∈ S.attachments ∧ a.status = .pending := by
  have hfound := findPendingRow_found S user cid u a hfind
  refine ⟨?_, hfound.1, hfound.2.2.2⟩
  unfold upload_attachment_content
  rw [hfind]
  dsimp only
  rw [if_pos hlen]

/-- Witness for the amended C2 at a concrete mismatching upload. -/
theorem C2_witness :
    upload_attachment_content envW S0W "alice" 1 "ua" [1, 2] =
      (.error (.sizeMismatch 3 2), S0W) ∧
    rowA ∈ S0W.attachments ∧ rowA.status = .pending :=
  C2_size_mismatch_row_stays_pending envW S0W "alice" 1 "ua" [1, 2] rowA
    (by rfl) (by decide)

/-! #### C10: storage-path generation -/

theorem uploadedRow_id_path (env : Env) (a : AttachmentRow) (content : List Nat) :
    (uploadedRow env a content).id = a.id ∧
    (uploadedRow env a content).storage_path = a.storage_path := by
  unfold uploadedRow
  dsimp only
  split <;> exact ⟨rfl, rfl⟩

theorem updateRow_pairs (rows : List AttachmentRow) (a newRow : AttachmentRow)
    (hid : newRow.id = a.id) (hpath : newRow.storage_path = a.storage_path)
    (ha : a ∈ rows) :
    ∀ r ∈ updateRow rows a.id newRow,
      (r.id, r.storage_path) ∈ rows.map (fun r0 => (r0.id, r0.storage_path)) := by
  intro r hr
  rcases List.mem_map.mp hr with ⟨x, hx, hgx⟩
  by_cases hxa : x.id = a.id
  · have hrn : r = newRow := by rw [← hgx]; simp [hxa]
    rw [hrn, hid, hpath]
    exact List.mem_map_of_mem _ ha
  · have hrx : r = x := by rw [← hgx]; simp [hxa]
    rw [hrx]
    exact List.mem_map_of_mem _ hx

/-- Claim C10: the storage path is generated once, at initiation, with the
content-hash argument omitted — so its unique-id component is the
timestamp-derived string — and the upload route never rewrites any row's
storage path (the store call's return value is dropped), so the hash-prefix
branch of `generate_storage_path` is never taken for API-initiated
attachments. -/
theorem C10_storage_path_timestamp :
    (∀ (env : Env) (S : St) (user : String) (cid : Nat) (req : UploadRequest)
       (resp : UploadResponse) (S1 : St),
       initiate_attachment_upload env S user cid req = .ok (resp, S1) →
       ∀ row ∈ S1.attachments, row ∉ S.attachments →
         row.storage_path = generate_storage_path env user cid req.filename none ∧
         row.storage_path = user ++ "/conversations/" ++ toString cid ++ "/" ++
           env.yearStr ++ "/" ++ env.monthStr ++ "/" ++ env.dayStr ++ "/" ++
           env.timeStr ++ "_" ++ sanitize_filename req.filename) ∧
    (∀ (env : Env) (S : St) (user : String) (cid : Nat) (u : String)
       (content : List Nat),
       ∀ r ∈ (upload_attachment_content env S user cid u content).2.attachments,
         (r.id, r.storage_path) ∈
           S.attachments.map (fun r0 => (r0.id, r0.storage_path))) := by
  constructor
  · intro env S user cid req resp S1 h row hrow hnot
    unfold initiate_attachment_upload at h
    split at h
    · simp at h
    split at h
    · simp at h
    split at h
    · simp at h
    split at h
    · simp at h
    dsimp only at h
    have hpair := Except.ok.inj h
    simp only [Prod.mk.injEq] at hpair
    have hS1 := hpair.2
    subst hS1
    dsimp only at hrow
    rcases List.mem_append.mp hrow with h1 | h1
    · exact absurd h1 hnot
    · have hr := List.mem_singleton.mp h1
      subst hr
      exact ⟨rfl, rfl⟩
  · intro env S user cid u content r hr
    unfold upload_attachment_content at hr
    cases hf : findPendingRow S user cid u with
    | none =>
        rw [hf] at hr
        exact List.mem_map_of_mem _ hr
    | some a =>
        have ha := (findPendingRow_found S user cid u a hf).1
        rw [hf] at hr
        dsimp only at hr
        by_cases hlen : content.length ≠ a.file_size
        · rw [if_pos hlen] at hr
          exact List.mem_map_of_mem _ hr
        · rw [if_neg hlen] at hr
          cases hd : findDuplicate S cid (env.sha256 content) a.id with
          | some dup =>
              rw [hd] at hr
              dsimp only [deleteRow] at hr
              exact List.mem_map_of_mem _ (List.mem_of_mem_filter hr)
          | none =>
              rw [hd] at hr
              dsimp only at hr
              by_cases hs : env.storeFails a.storage_path = true
              · rw [if_pos hs] at hr
                dsimp only at hr
                refine updateRow_pairs S.attachments a _ ?_ ?_ ha r hr
                · dsimp only
                  split <;> rfl
                · dsimp only
                  split <;> rfl
              · rw [if_neg hs] at hr
                dsimp only [afterUpload] at hr
                exact updateRow_pairs S.attachments a _
                  (uploadedRow_id_path env a content).1
                  (uploadedRow_id_path env a content).2 ha r hr

/-- Witness for C10: the concrete initiation produces the timestamp-derived
path, and a concrete upload leaves every surviving row's (id, storage_path)
pair drawn from the pre-state. -/
theorem C10_witness :
    rowNew.storage_path =
      "alice/conversations/1/2026/10/12/103045123456_new.pdf" ∧
    (rowC.id, rowC.storage_path) ∈
      S0W.attachments.map (fun r0 => (r0.id, r0.storage_path)) := by
  constructor
  · exact (C10_storage_path_timestamp.1 envW S0W "alice" 1 reqW respW S1W
      (by rfl) rowNew (by decide) (by decide)).2
  · exact C10_storage_path_timestamp.2 envW S0W "alice" 1 "ua" bytesW rowC
      (by decide)

/-! #### C1: per-conversation dedup -/

theorem uploadedRow_id (env : Env) (a : AttachmentRow) (content : List Nat) :
    (uploadedRow env a content).id = a.id := by
  unfold uploadedRow; dsimp only; split <;> rfl

theorem uploadedRow_uuid (env : Env) (a : AttachmentRow) (content : List Nat) :
    (uploadedRow env a content).uuid = a.uuid := by
  unfold uploadedRow; dsimp only; split <;> rfl

theorem uploadedRow_conv (env : Env) (a : AttachmentRow) (content : List Nat) :
    (uploadedRow env a content).conversation_id = a.conversation_id := by
  unfold uploadedRow; dsimp only; split <;> rfl

theorem uploadedRow_filename (env : Env) (a : AttachmentRow) (content : List Nat) :
    (uploadedRow env a content).filename = a.filename := by
  unfold uploadedRow; dsimp only; split <;> rfl

theorem uploadedRow_status (env : Env) (a : AttachmentRow) (content : List Nat) :
    (uploadedRow env a content).status = .uploaded := rfl

theorem uploadedRow_hash (env : Env) (a : AttachmentRow) (content : List Nat) :
    (uploadedRow env a content).file_hash = env.sha256 content := rfl

theorem updateRow_map_id (rows : List AttachmentRow) (i : Nat)
    (newRow : AttachmentRow) (h : newRow.id = i) :
    (updateRow rows i newRow).map (fun r => r.id) = rows.map (fun r => r.id) := by
  induction rows with
  | nil => rfl
  | cons x t ih =>
      unfold updateRow at ih ⊢
      simp only [List.map_cons, List.map_map] at ih ⊢
      by_cases hxi : x.id = i
      · simp only [hxi, if_pos]
        rw [h]
        exact congrArg (fun l => i :: l) ih
      · simp only [hxi, if_neg, Bool.false_eq_true, not_false_iff]
        exact congrArg (fun l => x.id :: l) ih

/-- Claim C1: with two PENDING rows of one conversation and byte-identical
content uploaded to each (the first upload succeeding), the second upload
fails as Conflict naming the first row's filename, the second PENDING record
is deleted, and the conversation then holds exactly one UPLOADED attachment
with that content hash.  Hypotheses: distinct primary keys and public
identifiers (database indexes), both rows PENDING in the conversation with
the declared size matching the content, ownership, no pre-existing UPLOADED
row with the same hash, and the store call succeeding. -/
theorem C1_dedup_conflict (env : Env) (S0 : St) (user : String) (cid : Nat)
    (a b : AttachmentRow) (content : List Nat)
    (hidsN : (S0.attachments.map (fun r => r.id)).Nodup)
    (huuidN : (S0.attachments.map (fun r => r.uuid)).Nodup)
    (ha : a ∈ S0.attachments) (haP : a.status = .pending)
    (haC : a.conversation_id = cid)
    (hb : b ∈ S0.attachments) (hbP : b.status = .pending)
    (hbC : b.conversation_id = cid)
    (hab : a.id ≠ b.id)
    (hown : conversationJoinOwner S0 cid user = true)
    (hlenA : content.length = a.file_size)
    (hlenB : content.length = b.file_size)
    (hnodup : ∀ r ∈ S0.attachments,
      ¬(r.conversation_id = cid ∧ r.file_hash = env.sha256 content ∧
        r.status = .uploaded))
    (hstore : env.storeFails a.storage_path = false) :
    upload_attachment_content env S0 user cid a.uuid content =
      (.ok (uploadedRow env a content), afterUpload env S0 a content) ∧
    upload_attachment_content env (afterUpload env S0 a content) user cid
        b.uuid content =
      (.error (.conflict a.filename),
       afterConflict (afterUpload env S0 a content) b.id) ∧
    (afterConflict (afterUpload env S0 a content) b.id).attachments.all
      (fun r => !(decide (r.id = b.id))) = true ∧
    ((afterConflict (afterUpload env S0 a content) b.id).attachments.filter
      (fun r => decide (r.conversation_id = cid) &&
        decide (r.status = AttachmentStatus.uploaded) &&
        decide (r.file_hash = env.sha256 content))).length = 1 := by
  have huuidInj : ∀ x ∈ S0.attachments, ∀ y ∈ S0.attachments,
      x.uuid = y.uuid → x = y :=
    fun x hx y hy hxy => List.inj_on_of_nodup_map huuidN hx hy hxy
  have hne_ab : a ≠ b := fun he => hab (congrArg (fun r => r.id) he)
  -- first lookup resolves to `a`
  have hfp1 : findPendingRow S0 user cid a.uuid = some a := by
    unfold findPendingRow
    rw [if_pos hown]
    apply find?_eq_some_unique _ _ a ha
    · simp [haC, haP]
    · intro x hx hpx
      simp only [Bool.and_eq_true, decide_eq_true_eq] at hpx
      exact huuidInj x hx a ha hpx.1.1
  -- no pre-existing duplicate
  have hdup1 : findDuplicate S0 cid (env.sha256 content) a.id = none := by
    unfold findDuplicate
    rw [List.find?_eq_none]
    intro x hx hpx
    simp only [Bool.and_eq_true, decide_eq_true_eq, Bool.not_eq_true,
      decide_eq_false_iff_not] at hpx
    exact hnodup x hx ⟨hpx.1.1.1, hpx.1.1.2, hpx.2⟩
  -- the first upload succeeds
  have hcall1 : upload_attachment_content env S0 user cid a.uuid content =
      (.ok (uploadedRow env a content), afterUpload env S0 a content) := by
    unfold upload_attachment_content
    rw [hfp1]
    dsimp only
    rw [if_neg (fun h => h hlenA)]
    rw [hdup1]
    dsimp only
    rw [if_neg (by simp [hstore])]
  -- shape of the intermediate state
  have hS1att : (afterUpload env S0 a content).attachments =
      S0.attachments.map
        (fun r => if r.id = a.id then uploadedRow env a content else r) := rfl
  have hbS1 : b ∈ (afterUpload env S0 a content).attachments := by
    rw [hS1att]
    refine List.mem_map.mpr ⟨b, hb, ?_⟩
    have hne : ¬(b.id = a.id) := fun h => hab h.symm
    simp [hne]
  have ha2S1 : uploadedRow env a content ∈
      (afterUpload env S0 a content).attachments := by
    rw [hS1att]
    exact List.mem_map.mpr ⟨a, ha, by simp⟩
  have hS1elts : ∀ x ∈ (afterUpload env S0 a content).attachments,
      x = uploadedRow env a content ∨ (x ∈ S0.attachments ∧ x.id ≠ a.id) := by
    intro x hx
    rw [hS1att] at hx
    rcases List.mem_map.mp hx with ⟨y, hy, hgy⟩
    by_cases hya : y.id = a.id
    · left; rw [← hgy]; simp [hya]
    · right
      have hxy : x = y := by rw [← hgy]; simp [hya]
      subst hxy
      exact ⟨hy, hya⟩
  -- second lookup resolves to `b`
  have hfp2 : findPendingRow (afterUpload env S0 a content) user cid b.uuid =
      some b := by
    unfold findPendingRow
    rw [if_pos (show conversationJoinOwner (afterUpload env S0 a content)
      cid user = true from hown)]
    apply find?_eq_some_unique _ _ b hbS1
    · simp [hbC, hbP]
    · intro x hx hpx
      simp only [Bool.and_eq_true, decide_eq_true_eq] at hpx
      rcases hS1elts x hx with h1 | h1
      · exfalso
        have hxu : x.uuid = a.uuid := by
          rw [h1]; exact uploadedRow_uuid env a content
        have hba : a.uuid = b.uuid := by rw [← hxu]; exact hpx.1.1
        exact hne_ab (huuidInj a ha b hb hba)
      · exact huuidInj x h1.1 b hb hpx.1.1
  -- the duplicate check of the second upload finds the uploaded first row
  have hdup2 : findDuplicate (afterUpload env S0 a content) cid
      (env.sha256 content) b.id = some (uploadedRow env a content) := by
    unfold findDuplicate
    apply find?_eq_some_unique _ _ _ ha2S1
    · simp [uploadedRow_conv, uploadedRow_hash, uploadedRow_status,
        uploadedRow_id, haC, hab]
    · intro x hx hpx
      simp only [Bool.and_eq_true, decide_eq_true_eq, Bool.not_eq_true,
        decide_eq_false_iff_not] at hpx
      rcases hS1elts x hx with h1 | h1
      · exact h1
      · exact absurd ⟨hpx.1.1.1, hpx.1.1.2, hpx.2⟩ (hnodup x h1.1)
  -- the second upload conflicts, deleting its pending row
  have hcall2 : upload_attachment_content env (afterUpload env S0 a content)
      user cid b.uuid content =
      (.error (.conflict a.filename),
       afterConflict (afterUpload env S0 a content) b.id) := by
    unfold upload_attachment_content
    rw [hfp2]
    dsimp only
    rw [if_neg (fun h => h hlenB)]
    rw [hdup2]
    dsimp only
    rw [uploadedRow_filename]
  -- the deleted pending row is gone
  have hall : (afterConflict (afterUpload env S0 a content) b.id).attachments.all
      (fun r => !(decide (r.id = b.id))) = true := by
    rw [List.all_eq_true]
    intro r hr
    have hr2 : r ∈ (afterUpload env S0 a content).attachments.filter
        (fun r => !(decide (r.id = b.id))) := hr
    exact (List.mem_filter.mp hr2).2
  -- exactly one uploaded row with the content hash remains
  have hS1ids : ((afterUpload env S0 a content).attachments.map
      (fun r => r.id)).Nodup := by
    have heq : (afterUpload env S0 a content).attachments.map (fun r => r.id) =
        S0.attachments.map (fun r => r.id) :=
      updateRow_map_id S0.attachments a.id (uploadedRow env a content)
        (uploadedRow_id env a content)
    rw [heq]
    exact hidsN
  have hS1nodup : (afterUpload env S0 a content).attachments.Nodup :=
    List.Nodup.of_map _ hS1ids
  have hS2nodup : (afterConflict (afterUpload env S0 a content) b.id).attachments.Nodup := by
    have hsub : (afterConflict (afterUpload env S0 a content) b.id).attachments.Sublist
        (afterUpload env S0 a content).attachments := List.filter_sublist _
    exact List.Sublist.nodup hsub hS1nodup
  have ha2S2 : uploadedRow env a content ∈
      (afterConflict (afterUpload env S0 a content) b.id).attachments := by
    show uploadedRow env a content ∈ (afterUpload env S0 a content).attachments.filter
      (fun r => !(decide (r.id = b.id)))
    refine List.mem_filter.mpr ⟨ha2S1, ?_⟩
    simp [uploadedRow_id, hab]
  have hcount : ((afterConflict (afterUpload env S0 a content) b.id).attachments.filter
      (fun r => decide (r.conversation_id = cid) &&
        decide (r.status = AttachmentStatus.uploaded) &&
        decide (r.file_hash = env.sha256 content))).length = 1 := by
    rw [← List.countP_eq_length_filter]
    apply countP_eq_one_unique _ _ (uploadedRow env a content) hS2nodup ha2S2
    · simp [uploadedRow_conv, uploadedRow_status, uploadedRow_hash, haC]
    · intro x hx hpx
      simp only [Bool.and_eq_true, decide_eq_true_eq] at hpx
      have hxS1 : x ∈ (afterUpload env S0 a content).attachments :=
        List.mem_of_mem_filter (show x ∈ (afterUpload env S0 a content).attachments.filter
          (fun r => !(decide (r.id = b.id))) from hx)
      rcases hS1elts x hxS1 with h1 | h1
      · exact h1
      · exact absurd ⟨hpx.1.1, hpx.2, hpx.1.2⟩ (hnodup x h1.1)
  exact ⟨hcall1, hcall2, hall, hcount⟩

/-- Witness for C1: the concrete dedup scenario — both pending rows of
conversation 1 receive the same three bytes; the first upload succeeds, the
second conflicts naming `report.pdf`, row `ub` is deleted, and exactly one
UPLOADED row with the hash remains. -/
theorem C1_witness :
    upload_attachment_content envW S0W "alice" 1 "ua" bytesW =
      (.ok (uploadedRow envW rowA bytesW), afterUpload envW S0W rowA bytesW) ∧
    upload_attachment_content envW (afterUpload envW S0W rowA bytesW) "alice" 1
        "ub" bytesW =
      (.error (.conflict "report.pdf"),
       afterConflict (afterUpload envW S0W rowA bytesW) 2) ∧
    (afterConflict (afterUpload envW S0W rowA bytesW) 2).attachments.all
      (fun r => !(decide (r.id = 2))) = true ∧
    ((afterConflict (afterUpload envW S0W rowA bytesW) 2).attachments.filter
      (fun r => decide (r.conversation_id = 1) &&
        decide (r.status = AttachmentStatus.uploaded) &&
        decide (r.file_hash = envW.sha256 bytesW))).length = 1 :=
  C1_dedup_conflict envW S0W "alice" 1 rowA rowB bytesW (by decide) (by decide)
    (by decide) (by decide) (by decide) (by decide) (by decide) (by decide)
    (by decide) (by decide) (by decide) (by decide) (by decide) (by decide)

end EdgeChatbot
